import Mathlib

/-!
Shallow embedding of the Task-Manager-API repository (Express + Mongoose).

The
definitions below are direct translations of the JavaScript source:
* `src/models/taskModel.js` (task schema, pre-save hook, isOverdue),
* `src/models/User.js` (user schema, findByEmail, sanitised JSON view),
* `src/routes/tasks.js` (list / get / create / update / delete / stats handlers),
* `src/routes/admin.js` (admin list, stats, user-status, delete handlers),
* `src/routes/auth.js` (register / login handlers, generateToken),
* `src/middleware/authMiddlesware.js` and `src/middleware/auth.js`
  (the two authenticateToken variants),
* `src/middleware/errorHandler.js` (error normaliser).

Datetimes are modelled as integers (milliseconds); document ids as naturals.
The MongoDB/Mongoose layer is modelled functionally: a collection is a list of
records, `findOne`/`findById` are `List.find?`, `countDocuments` is
`List.filter` + `length`, sort/skip/limit are `insertionSort`/`drop`/`take`.
Mongoose (v7) applies schema setters (such as `lowercase` on `User.email`) to
query filter values; the query embeddings below apply the same normalisation.
The jsonwebtoken library is modelled symbolically: a token records its payload
(`userId`), issue and expiry instants, and the signing secret; verification
succeeds exactly when the secrets agree and the expiry has not passed, which is
the documented behaviour of jwt.sign / jwt.verify.
-/

namespace TMApi

/-- Task status enumeration, from `taskSchema.status.enum`:
`["pending", "in-progress", "completed", "cancelled"]`. -/
inductive Status where
  | pending
  | inProgress
  | completed
  | cancelled
deriving DecidableEq, Repr

/-- Task priority enumeration, from `taskSchema.priority.enum`:
`["low", "medium", "high"]`. -/
inductive Priority where
  | low
  | medium
  | high
deriving DecidableEq, Repr

/-- User role enumeration, from `userSchema.role.enum`: `["user", "admin"]`. -/
inductive Role where
  | user
  | admin
deriving DecidableEq, Repr

/-- A task document (`src/models/taskModel.js`).  `completedAt = none` models
an unset/undefined `completedAt`; `dueDate = none` an absent due date.
`createdAt` comes from the `timestamps: true` schema option. -/
structure Task where
  id : Nat
  title : String
  description : Option String
  status : Status
  priority : Priority
  dueDate : Option Int
  owner : Nat
  tags : List String
  completedAt : Option Int
  createdAt : Int
deriving DecidableEq, Repr

/-- A user document (`src/models/User.js`).  `email` is stored lowercased by
the schema's `lowercase: true` setter; `password` holds the bcrypt hash
produced by the pre-save hook. -/
structure UserRec where
  id : Nat
  username : String
  email : String
  password : String
  role : Role
  isActive : Bool
deriving DecidableEq, Repr

/-- Lowercasing a string, modelling the Mongoose `lowercase: true` setter on
`User.email` (applied both on save and, in Mongoose 7, when casting query
filter values).  Implemented characterwise so that it reduces on concrete
strings. -/
def lowerStr (s : String) : String :=
  String.mk (s.toList.map Char.toLower)

/-- The task pre-save hook (`taskSchema.pre("save", ...)`, taskModel.js):

    if (this.isModified("status")) {
      if (this.status === "completed" && !this.completedAt) {
        this.completedAt = new Date();
      } else if (this.status !== "completed") {
        this.completedAt = undefined;
      }
    }

`statusModified` is Mongoose's `isModified("status")`; `now` is `new Date()`.
A `Date` object is always truthy in JavaScript, so `!this.completedAt` is
exactly `completedAt = none`. -/
def taskPreSave (statusModified : Bool) (now : Int) (t : Task) : Task :=
  if statusModified then
    if t.status = Status.completed ∧ t.completedAt = none then
      { t with completedAt := some now }
    else if t.status ≠ Status.completed then
      { t with completedAt := none }
    else t
  else t

/-- The request body of PUT /api/tasks/:id as destructured by the handler:
`const { title, description, status, priority, dueDate, tags } = req.body`.
An outer `none` models an `undefined` field (not supplied).  For `dueDate`
the inner option distinguishes a falsy value (mapped to `null` by the
handler) from a real date.  There is no `completedAt` field: the handler
never reads one. -/
structure UpdateBody where
  title : Option String := none
  description : Option String := none
  status : Option Status := none
  priority : Option Priority := none
  dueDate : Option (Option Int) := none
  tags : Option (List String) := none
deriving Repr

/-- Field assignment of the PUT /api/tasks/:id handler (tasks.js):

    if (title !== undefined) task.title = title;
    ...
    if (dueDate !== undefined) task.dueDate = dueDate ? new Date(dueDate) : null;
    if (tags !== undefined) task.tags = tags;

Only supplied fields change; `completedAt` is never assigned here. -/
def applyUpdate (b : UpdateBody) (t : Task) : Task :=
  let t := match b.title with | some v => { t with title := v } | none => t
  let t := match b.description with | some v => { t with description := some v } | none => t
  let t := match b.status with | some v => { t with status := v } | none => t
  let t := match b.priority with | some v => { t with priority := v } | none => t
  let t := match b.dueDate with | some v => { t with dueDate := v } | none => t
  match b.tags with | some v => { t with tags := v } | none => t

/-- Mongoose marks a primitive path modified only when the assigned value
differs from the current one; for the PUT handler the `status` path is
modified exactly when the body supplies a status different from the stored
one. -/
def statusModifiedBy (b : UpdateBody) (t : Task) : Bool :=
  match b.status with
  | some s => s ≠ t.status
  | none => false

/-- The new-task document built by the POST /api/tasks handler (tasks.js):

    const task = new Task({ title, description, status, priority,
      dueDate: dueDate ? new Date(dueDate) : undefined, tags: tags || [],
      owner: req.user._id });

`completedAt` is not among the constructor arguments, so it starts unset;
on a new document every set path (including the `status` default) counts as
modified, so the subsequent save runs the hook with `statusModified = true`. -/
def newTaskDoc (id : Nat) (title : String) (description : Option String)
    (status : Option Status) (priority : Option Priority)
    (dueDate : Option Int) (tags : Option (List String))
    (owner : Nat) (createdAt : Int) : Task :=
  { id := id
    title := title
    description := description
    status := status.getD Status.pending
    priority := priority.getD Priority.medium
    dueDate := dueDate
    owner := owner
    tags := tags.getD []
    completedAt := none
    createdAt := createdAt }

/-- The result of the GET /api/tasks/:id handler: either the task (200) or an
error response with an HTTP status and the `{error, message}` body. -/
inductive GetTaskRes where
  | ok (t : Task)
  | err (status : Nat) (error message : String)
deriving DecidableEq, Repr

/-- HTTP status of a GET /api/tasks/:id result (200 on the success branch). -/
def GetTaskRes.httpStatus : GetTaskRes → Nat
  | .ok _ => 200
  | .err s _ _ => s

/-- GET /api/tasks/:id (tasks.js): `Task.findOne({_id: req.params.id,
owner: req.user._id})`; a missing result returns the single 404 body below,
with no distinction between absence and foreign ownership. -/
def getTaskById (db : List Task) (callerId tid : Nat) : GetTaskRes :=
  match db.find? (fun t => t.id == tid && t.owner == callerId) with
  | some t => .ok t
  | none => .err 404 "Task not found"
      "Task not found or you do not have permission to view it"

/-- The result of the DELETE /api/tasks/:id handler. -/
inductive DeleteTaskRes where
  | ok (message : String)
  | err (status : Nat) (error message : String)
deriving DecidableEq, Repr

/-- HTTP status of a DELETE /api/tasks/:id result. -/
def DeleteTaskRes.httpStatus : DeleteTaskRes → Nat
  | .ok _ => 200
  | .err s _ _ => s

/-- DELETE /api/tasks/:id (tasks.js): same owner-scoped `findOne`; on a miss
the single 404 body below; on a hit `findByIdAndDelete` removes the task. -/
def deleteTask (db : List Task) (callerId tid : Nat) :
    DeleteTaskRes × List Task :=
  match db.find? (fun t => t.id == tid && t.owner == callerId) with
  | some _ =>
      (.ok "Task deleted successfully", db.filter (fun t => t.id != tid))
  | none =>
      (.err 404 "Task not found"
        "Task not found or you do not have permission to delete it", db)

/-- The sort relation of `.sort({ createdAt: -1 })`: `a` may come before `b`
when its creation time is at least `b`'s (descending order). -/
def createdDesc (a b : Task) : Prop :=
  b.createdAt ≤ a.createdAt

instance : DecidableRel createdDesc := fun a b =>
  inferInstanceAs (Decidable (b.createdAt ≤ a.createdAt))

instance : IsTotal Task createdDesc :=
  ⟨fun a b => le_total b.createdAt a.createdAt⟩

instance : IsTrans Task createdDesc :=
  ⟨fun _ _ _ h1 h2 => le_trans h2 h1⟩

/-- `.sort({ createdAt: -1 })` on a query result, modelled as a sort of the
matching documents by descending creation time. -/
def sortByCreatedDesc (l : List Task) : List Task :=
  l.insertionSort createdDesc

/-- The Mongo filter built by the list handlers: always `owner` for the user
route, plus `status`/`priority` equality when those query parameters are
present (`if (status) query.status = status;` etc.). -/
def taskQuery (ownerFilter : Option Nat) (status : Option Status)
    (priority : Option Priority) (t : Task) : Bool :=
  (match ownerFilter with | some o => t.owner == o | none => true) &&
  (match status with | some s => t.status == s | none => true) &&
  (match priority with | some p => t.priority == p | none => true)

/-- The `pagination` object returned by every list handler. -/
structure Pagination where
  page : Nat
  limit : Nat
  total : Nat
  pages : Nat
deriving DecidableEq, Repr

/-- A task-list response: the page of tasks plus the pagination object. -/
structure TaskListRes where
  tasks : List Task
  pagination : Pagination
deriving DecidableEq, Repr

/-- `Math.ceil(total / limit)` in natural arithmetic, for a positive limit. -/
def ceilDivNat (total limit : Nat) : Nat :=
  (total + limit - 1) / limit

/-- GET /api/tasks (tasks.js):

    const { status, priority, page = 1, limit = 10 } = req.query;
    const query = { owner: req.user._id }; ...
    const skip = (pageNum - 1) * limitNum;
    const tasks = await Task.find(query).sort({createdAt: -1}).skip(skip).limit(limitNum);
    const total = await Task.countDocuments(query);
    ... pages: Math.ceil(total / limitNum)

`page?`/`limit?` are the optional query parameters; absence takes the
defaults 1 and 10. -/
def listTasks (db : List Task) (callerId : Nat) (status : Option Status)
    (priority : Option Priority) (page? limit? : Option Nat) : TaskListRes :=
  let pageNum := page?.getD 1
  let limitNum := limit?.getD 10
  let skip := (pageNum - 1) * limitNum
  let q := taskQuery (some callerId) status priority
  let matching := db.filter q
  { tasks := ((sortByCreatedDesc matching).drop skip).take limitNum
    pagination :=
      { page := pageNum, limit := limitNum, total := matching.length
        pages := ceilDivNat matching.length limitNum } }

/-- GET /api/admin/tasks (admin.js): identical to `listTasks` except that the
query has no owner constraint (`const query = {}`). -/
def adminListTasks (db : List Task) (status : Option Status)
    (priority : Option Priority) (page? limit? : Option Nat) : TaskListRes :=
  let pageNum := page?.getD 1
  let limitNum := limit?.getD 10
  let skip := (pageNum - 1) * limitNum
  let q := taskQuery none status priority
  let matching := db.filter q
  { tasks := ((sortByCreatedDesc matching).drop skip).take limitNum
    pagination :=
      { page := pageNum, limit := limitNum, total := matching.length
        pages := ceilDivNat matching.length limitNum } }

/-- `true` when the task's due date lies strictly before `now`; this is the
`dueDate: { $lt: new Date() }` condition (documents without a due date never
match `$lt`). -/
def dueBefore (now : Int) (t : Task) : Bool :=
  match t.dueDate with
  | some d => d < now
  | none => false

/-- The stats-summary body of GET /api/tasks/stats/summary.  `byStatus` is the
mapping assembled from the `$group: {_id: "$status", count: {$sum: 1}}`
aggregation: each status maps to the number of matching tasks (a status
absent from the aggregation output corresponds to count 0). -/
structure TaskSummary where
  total : Nat
  overdue : Nat
  byStatus : Status → Nat

/-- GET /api/tasks/stats/summary (tasks.js): aggregation `$match {owner}` then
`$group` by status; `total = countDocuments({owner})`;
`overdue = countDocuments({owner, dueDate: {$lt: now}, status: {$ne: "completed"}})`. -/
def statsSummary (db : List Task) (callerId : Nat) (now : Int) : TaskSummary :=
  let owned := db.filter (fun t => t.owner == callerId)
  { total := owned.length
    overdue := (db.filter (fun t =>
        t.owner == callerId && dueBefore now t && t.status != Status.completed)).length
    byStatus := fun s => (owned.filter (fun t => t.status == s)).length }

/-- A signed JWT, modelling the jsonwebtoken library symbolically: the payload
carries `userId` as the sole claim, `iat`/`exp` are the issue and expiry
instants (seconds), and `secret` stands for the HMAC signature — verification
against a secret succeeds exactly when the two secrets agree, as a correct
signature check does. -/
structure JwtToken where
  userId : Nat
  iat : Int
  exp : Int
  secret : String
deriving DecidableEq, Repr

/-- Verification failure kinds of jwt.verify: `JsonWebTokenError` (malformed
or bad signature) and `TokenExpiredError`. -/
inductive VerifyErr where
  | malformed
  | expired
deriving DecidableEq, Repr

/-- Result of jwt.verify. -/
inductive JwtResult where
  | ok (userId : Nat)
  | err (e : VerifyErr)
deriving DecidableEq, Repr

/-- jwt.sign({ userId }, secret, { expiresIn }) at instant `now`, with
`expiresIn` in seconds. -/
def jwtSign (secret : String) (userId : Nat) (now : Int) (expiresIn : Int) :
    JwtToken :=
  { userId := userId, iat := now, exp := now + expiresIn, secret := secret }

/-- jwt.verify(token, secret) at instant `now`: a wrong signature raises
`JsonWebTokenError`; otherwise the token is expired when `now ≥ exp`
(jsonwebtoken throws `TokenExpiredError` when the clock timestamp reaches
the `exp` claim); otherwise the payload is returned. -/
def jwtVerify (secret : String) (now : Int) (tok : JwtToken) : JwtResult :=
  if tok.secret ≠ secret then .err .malformed
  else if tok.exp ≤ now then .err .expired
  else .ok tok.userId

/-- `generateToken` (routes/auth.js): jwt.sign({ userId }, JWT_SECRET,
{ expiresIn: "24h" }); 24 hours = 86400 seconds.  (The second route variant
uses "1d", the same duration.) -/
def generateToken (secret : String) (userId : Nat) (now : Int) : JwtToken :=
  jwtSign secret userId now 86400

/-- What an Express middleware does with a request: respond immediately with
a status and an `{error, message}` body, or attach the resolved user to the
request and call `next()`. -/
inductive AuthOutcome where
  | respond (status : Nat) (error message : String)
  | proceed (user : UserRec)
deriving DecidableEq, Repr

/-- Characterwise splitting on the space character, the behaviour of the
JavaScript `header.split(" ")`. -/
def splitSpaces : List Char → List Char → List String
  | [], acc => [String.mk acc.reverse]
  | c :: cs, acc =>
      if c = ' ' then String.mk acc.reverse :: splitSpaces cs []
      else splitSpaces cs (c :: acc)

/-- Token extraction shared by both middleware variants:

    const authHeader = req.headers["authorization"];
    const token = authHeader && authHeader.split(" ")[1];

`none` models a missing header; an empty header, a header without a second
space-separated component, and an empty token are all falsy. -/
def extractToken (authHeader : Option String) : Option String :=
  match authHeader with
  | none => none
  | some h =>
      if h = "" then none
      else match (splitSpaces h.toList []).get? 1 with
        | some t => if t = "" then none else some t
        | none => none

/-- The user-lookup phase of `authenticateToken` in
`src/middleware/authMiddlesware.js` (lines after jwt.verify): find the user
by the embedded id; absent → 401; inactive → 401; otherwise attach. -/
def authUserLookup (db : List UserRec) (uid : Nat) : AuthOutcome :=
  match db.find? (fun u => u.id == uid) with
  | none => .respond 401 "Access denied" "Invalid token - user not found"
  | some u =>
      if u.isActive then .proceed u
      else .respond 401 "Access denied" "User account is inactive"

/-- The verification phase of `authenticateToken` in authMiddlesware.js: the
catch clause maps `JsonWebTokenError` and `TokenExpiredError` to their 401
messages; a successful decode proceeds to the user lookup. -/
def authVerifyStep (db : List UserRec) : JwtResult → AuthOutcome
  | .err .malformed => .respond 401 "Access denied" "Invalid token"
  | .err .expired => .respond 401 "Access denied" "Token expired"
  | .ok uid => authUserLookup db uid

/-- `authenticateToken` from `src/middleware/authMiddlesware.js` (the variant
mounted by the task, auth-profile and admin routes).  `verify` is
`jwt.verify(token, JWT_SECRET)` as a function of the token string. -/
def authenticateToken (db : List UserRec) (verify : String → JwtResult)
    (authHeader : Option String) : AuthOutcome :=
  match extractToken authHeader with
  | none => .respond 401 "Access denied" "No token provided"
  | some tok => authVerifyStep db (verify tok)

/-- `authenticateToken` from `src/middleware/auth.js` (the other variant in
the repository): the missing-token message differs, a missing user yields
status 404 rather than 401, and there is no `isActive` check — the resolved
user is attached unconditionally. -/
def authJsAuthenticateToken (db : List UserRec) (verify : String → JwtResult)
    (authHeader : Option String) : AuthOutcome :=
  match extractToken authHeader with
  | none => .respond 401 "Access denied" "Access token is missing"
  | some tok =>
      match verify tok with
      | .err .malformed => .respond 401 "Access denied" "Invalid token"
      | .err .expired => .respond 401 "Access denied" "Token expired"
      | .ok uid =>
          match db.find? (fun u => u.id == uid) with
          | none => .respond 404 "Access denied" "Invalid token - user not found"
          | some u => .proceed u

/-- Result of the POST /api/auth/register handler. -/
inductive RegisterRes where
  | err (status : Nat) (error message : String)
  | created (token : JwtToken) (id : Nat) (username email : String) (role : Role)
deriving DecidableEq, Repr

/-- bcrypt.hash with cost 12, modelled symbolically (the hash of `s` is a
tagged copy of `s`; `comparePassword` below inverts the tag). -/
def bcryptHash (s : String) : String :=
  "bcrypt12$" ++ s

/-- `userSchema.methods.comparePassword`: bcrypt.compare(candidate, hash). -/
def comparePassword (candidate hash : String) : Bool :=
  bcryptHash candidate == hash

/-- POST /api/auth/register (routes/auth.js):

    const existingUser = await User.findOne({ $or: [{ email }, { username }] });
    if (existingUser) return 400 { error: "User already exists",
      message: existingUser.email === email ? "Email already registered"
                                            : "Username already taken" };
    const user = new User({ username, email, password }); await user.save(); ...

Mongoose 7 applies the `lowercase` setter of `User.email` when casting the
query filter, so the `$or` lookup compares against the lowercased input; the
ternary, however, compares the stored (lowercased) email against the raw
`req.body.email` string.  On success the saved user has the lowercased email
and the bcrypt password hash, and a token is issued for the new id. -/
def register (db : List UserRec) (username email password : String)
    (newId : Nat) (secret : String) (now : Int) : RegisterRes × List UserRec :=
  match db.find? (fun u => u.email == lowerStr email || u.username == username) with
  | some existingUser =>
      (.err 400 "User already exists"
        (if existingUser.email = email then "Email already registered"
         else "Username already taken"), db)
  | none =>
      let u : UserRec :=
        { id := newId, username := username, email := lowerStr email
          password := bcryptHash password, role := Role.user, isActive := true }
      (.created (generateToken secret newId now) newId u.username u.email u.role,
       db ++ [u])

/-- Result of the POST /api/auth/login handler. -/
inductive LoginRes where
  | err (status : Nat) (error message : String)
  | ok (token : JwtToken) (id : Nat) (username email : String) (role : Role)
deriving DecidableEq, Repr

/-- POST /api/auth/login (routes/auth.js, the variant returning 401 for an
inactive account).  `compare` abstracts `user.comparePassword` (any bcrypt
comparison function); the empty string models a missing/falsy credential
(`if (!email || !password)`).  `User.findByEmail` lowercases its argument
before the lookup. -/
def login (compare : String → String → Bool) (db : List UserRec)
    (secret : String) (now : Int) (email password : String) : LoginRes :=
  if email = "" ∨ password = "" then
    .err 400 "Missing credentials" "Email and password are required"
  else
    match db.find? (fun u => u.email == lowerStr email) with
    | none => .err 401 "Invalid credentials" "Invalid email or password"
    | some user =>
        if user.isActive = false then
          .err 401 "Account inactive" "Your account has been deactivated"
        else if compare password user.password = false then
          .err 401 "Invalid credentials" "Invalid email or password"
        else
          .ok (generateToken secret user.id now) user.id user.username
            user.email user.role

/-- A JavaScript value as far as `typeof x !== "boolean"` is concerned. -/
inductive JsVal where
  | bool (b : Bool)
  | str (s : String)
  | num (n : Int)
  | null
  | undef
deriving DecidableEq, Repr

/-- The sanitized user view returned by PUT /api/admin/users/:id/status —
by construction it has no password field. -/
structure SanitizedUser where
  id : Nat
  username : String
  email : String
  role : Role
  isActive : Bool
deriving DecidableEq, Repr

/-- Drop the password hash from a user record. -/
def sanitizeUser (u : UserRec) : SanitizedUser :=
  { id := u.id, username := u.username, email := u.email, role := u.role
    isActive := u.isActive }

/-- Result of the PUT /api/admin/users/:id/status handler. -/
inductive UserStatusRes where
  | err (status : Nat) (error message : String)
  | ok (message : String) (user : SanitizedUser)
deriving DecidableEq, Repr

/-- PUT /api/admin/users/:id/status (routes/admin.js):

    const { isActive } = req.body;
    if (typeof isActive !== "boolean") return 400 ...;
    const user = await User.findById(req.params.id);
    if (!user) return 404 ...;
    if (user._id.toString() === req.user._id.toString()) return 400 ...;
    user.isActive = isActive; await user.save(); ...

Returns the response together with the updated collection. -/
def updateUserStatus (db : List UserRec) (callerId targetId : Nat)
    (isActiveVal : JsVal) : UserStatusRes × List UserRec :=
  match isActiveVal with
  | .bool b =>
      match db.find? (fun u => u.id == targetId) with
      | none => (.err 404 "User not found" "User not found", db)
      | some user =>
          if user.id == callerId then
            (.err 400 "Invalid operation" "You cannot deactivate your own account",
             db)
          else
            let user' := { user with isActive := b }
            (.ok ((if b then "User activated" else "User deactivated") ++
                " successfully") (sanitizeUser user'),
             db.map (fun x => if x.id == user.id then user' else x))
  | _ => (.err 400 "Invalid input" "isActive must be a boolean value", db)

/-- A field-level validation message, as produced by the error normaliser
from a Mongoose ValidationError. -/
structure FieldError where
  field : String
  message : String
deriving DecidableEq, Repr

/-- The errors the centralized normaliser distinguishes
(src/middleware/errorHandler.js). -/
inductive AppError where
  | validationFailure (errs : List FieldError)
  | duplicateKey (field : String)
  | castFailure (path : String)
  | jwtMalformed
  | jwtExpired
  | other
deriving DecidableEq, Repr

/-- The JSON error envelope `{error, errors?}` with its HTTP status. -/
structure ErrorResponse where
  status : Nat
  error : String
  errors : Option (List FieldError)
deriving DecidableEq, Repr

/-- `errorHandler` (src/middleware/errorHandler.js): maps each error kind to
its status and envelope; a ValidationError becomes 400 with the field-level
detail list. -/
def errorHandler : AppError → ErrorResponse
  | .validationFailure errs => ⟨400, "Validation Error", some errs⟩
  | .duplicateKey f => ⟨400, "Duplicate Error", some [⟨f, f ++ " already exists"⟩]⟩
  | .castFailure p => ⟨400, "Invalid ID Format", some [⟨p, "Invalid ID format"⟩]⟩
  | .jwtMalformed => ⟨401, "Invalid token", none⟩
  | .jwtExpired => ⟨401, "Token expired", none⟩
  | .other => ⟨500, "Internal Server Error", none⟩

/-- `taskSchema.dueDate.validate` (taskModel.js):
`return !value || value >= new Date();` — valid when the due date is absent
or not strictly in the past. -/
def dueDateValid (now : Int) (value : Option Int) : Bool :=
  match value with
  | none => true
  | some v => now ≤ v

/-- Schema validation of a task document at instant `now`, restricted to the
`dueDate` path (the only validator a claim concerns; the title/description
length checks are independent of it). -/
def validateTask (now : Int) (t : Task) : List FieldError :=
  if dueDateValid now t.dueDate then []
  else [⟨"dueDate", "Due date must be in the future"⟩]

/-- Result of `document.save()` for a task. -/
inductive SaveResult where
  | ok (t : Task)
  | validationFailure (errs : List FieldError)
deriving DecidableEq, Repr

/-- `task.save()`: Mongoose runs validation first (validate hooks precede
save hooks), then the pre-save `completedAt` hook, then persists. -/
def saveTask (now : Int) (statusModified : Bool) (t : Task) : SaveResult :=
  match validateTask now t with
  | [] => .ok (taskPreSave statusModified now t)
  | errs => .validationFailure errs

/-- `taskSchema.methods.isOverdue` (taskModel.js):
`this.dueDate && this.dueDate < new Date() && this.status !== "completed"`. -/
def Task.isOverdue (t : Task) (now : Int) : Bool :=
  dueBefore now t && t.status != Status.completed

/-- PUT /api/tasks/:id (tasks.js) end to end: owner-scoped `findOne`, a miss
returns the fixed 404 body, a hit applies the supplied fields and saves
(running validation and the pre-save hook). -/
def putTask (db : List Task) (callerId tid : Nat) (b : UpdateBody)
    (now : Int) : GetTaskRes × List Task :=
  match db.find? (fun t => t.id == tid && t.owner == callerId) with
  | none =>
      (.err 404 "Task not found"
        "Task not found or you do not have permission to update it", db)
  | some t =>
      let t' := applyUpdate b t
      match saveTask now (statusModifiedBy b t) t' with
      | .ok t'' => (.ok t'', db.map (fun x => if x.id == t.id then t'' else x))
      | .validationFailure _ =>
          -- the thrown ValidationError propagates to the error normaliser
          (.err 400 "Validation Error" "Due date must be in the future", db)

theorem taskPreSave_not_modified (t : Task) (now : Int) :
    taskPreSave false now t = t := rfl

theorem applyUpdate_completedAt (b : UpdateBody) (t : Task) :
    (applyUpdate b t).completedAt = t.completedAt := by
  obtain ⟨ti, de, st, pr, dd, tg⟩ := b
  cases ti <;> cases de <;> cases st <;> cases pr <;> cases dd <;> cases tg <;> rfl

theorem applyUpdate_status (b : UpdateBody) (t : Task) :
    (applyUpdate b t).status = b.status.getD t.status := by
  obtain ⟨ti, de, st, pr, dd, tg⟩ := b
  cases ti <;> cases de <;> cases st <;> cases pr <;> cases dd <;> cases tg <;> rfl

theorem taskPreSave_completedAt_of_none (m : Bool) (now : Int) (t : Task)
    (hs : t.status ≠ Status.completed) (hc : t.completedAt = none) :
    (taskPreSave m now t).completedAt = none := by
  cases m with
  | false => simpa [taskPreSave] using hc
  | true => simp [taskPreSave, hs, hc]

/-- Sample task records used by concrete witnesses below. -/
def sampleTask : Task :=
  { id := 1, title := "T", description := none, status := Status.completed,
    priority := Priority.medium, dueDate := none, owner := 1, tags := [],
    completedAt := none, createdAt := 0 }

/-- A pending task owned by user 2. -/
def sampleTask2 : Task :=
  { id := 2, title := "U", description := none, status := Status.pending,
    priority := Priority.high, dueDate := some 100, owner := 2, tags := [],
    completedAt := none, createdAt := 3 }

/-- C1: on every save in which the status path was modified, the pre-save
hook recomputes `completedAt` — setting it to the current time when the new
status is "completed" and it was unset, clearing it when the new status is
not "completed"; a save that does not modify status leaves it unchanged; a
partial update between two non-completed statuses never sets it; and neither
the update-body assignment nor the create handler's document constructor
accepts a `completedAt` value from the client. -/
theorem claim_C1 (t : Task) (now : Int) (b : UpdateBody) :
    ((taskPreSave false now t).completedAt = t.completedAt)
    ∧ (t.status = Status.completed → t.completedAt = none →
        (taskPreSave true now t).completedAt = some now)
    ∧ (t.status ≠ Status.completed → (taskPreSave true now t).completedAt = none)
    ∧ (∀ s, b.status = some s → s ≠ Status.completed →
        t.status ≠ Status.completed → t.completedAt = none →
        (taskPreSave (statusModifiedBy b t) now (applyUpdate b t)).completedAt
          = none)
    ∧ ((applyUpdate b t).completedAt = t.completedAt)
    ∧ (∀ id title de st pr dd tags owner cAt,
        (newTaskDoc id title de st pr dd tags owner cAt).completedAt = none) := by
  refine ⟨rfl, ?_, ?_, ?_, applyUpdate_completedAt b t, fun _ _ _ _ _ _ _ _ _ => rfl⟩
  · intro hs hc
    simp [taskPreSave, hs, hc]
  · intro hs
    by_cases hc : t.completedAt = none
    · simp [taskPreSave, hs, hc]
    · simp [taskPreSave, hs, hc]
  · intro s hb hsnc hts hc
    apply taskPreSave_completedAt_of_none
    · rw [applyUpdate_status, hb]
      exact hsnc
    · rw [applyUpdate_completedAt]
      exact hc

/-- Concrete instantiation of C1: creating with status "completed" stamps
`completedAt`, and a pending→in-progress update leaves it unset. -/
theorem claim_C1_witness :
    ((sampleTask.status = Status.completed ∧ sampleTask.completedAt = none)
      ∧ (taskPreSave true 5 sampleTask).completedAt = some 5)
    ∧ ((UpdateBody.mk none none (some Status.inProgress) none none none).status
          = some Status.inProgress
        ∧ sampleTask2.status ≠ Status.completed
        ∧ sampleTask2.completedAt = none)
      ∧ (taskPreSave
          (statusModifiedBy
            (UpdateBody.mk none none (some Status.inProgress) none none none)
            sampleTask2) 5
          (applyUpdate
            (UpdateBody.mk none none (some Status.inProgress) none none none)
            sampleTask2)).completedAt = none := by
  refine ⟨⟨⟨rfl, rfl⟩, ?_⟩, ⟨rfl, by decide, rfl⟩, ?_⟩
  · exact (claim_C1 sampleTask 5 (UpdateBody.mk none none none none none none)).2.1
      rfl rfl
  · exact (claim_C1 sampleTask2 5
      (UpdateBody.mk none none (some Status.inProgress) none none none)).2.2.2.1
      Status.inProgress rfl (by decide) (by decide) rfl

/-- C2: for every caller and task id, when no task with that id belongs to the
caller — because the task is absent or because it belongs to someone else —
GET /api/tasks/:id returns the one fixed 404 body, DELETE /api/tasks/:id
returns its one fixed 404 body and leaves the store unchanged, and neither
handler can ever answer 403. -/
theorem claim_C2 (db : List Task) (callerId tid : Nat)
    (h : ∀ t ∈ db, t.id = tid → t.owner ≠ callerId) :
    getTaskById db callerId tid
      = .err 404 "Task not found"
          "Task not found or you do not have permission to view it"
    ∧ (deleteTask db callerId tid).1
      = .err 404 "Task not found"
          "Task not found or you do not have permission to delete it"
    ∧ (deleteTask db callerId tid).2 = db
    ∧ (∀ (db' : List Task) (c' t' : Nat),
        (getTaskById db' c' t').httpStatus ≠ 403
        ∧ ((deleteTask db' c' t').1).httpStatus ≠ 403) := by
  have hfind : db.find? (fun t => t.id == tid && t.owner == callerId) = none := by
    rw [List.find?_eq_none]
    intro t ht
    simp only [Bool.and_eq_true, beq_iff_eq, not_and]
    intro hid
    exact fun how => h t ht hid how
  refine ⟨?_, ?_, ?_, ?_⟩
  · simp [getTaskById, hfind]
  · simp [deleteTask, hfind]
  · simp [deleteTask, hfind]
  · intro db' c' t'
    constructor
    · unfold getTaskById
      cases db'.find? (fun t => t.id == t' && t.owner == c') <;>
        simp [GetTaskRes.httpStatus]
    · unfold deleteTask
      cases db'.find? (fun t => t.id == t' && t.owner == c') <;>
        simp [DeleteTaskRes.httpStatus]

/-- Concrete instantiation of C2: user 1 looking up user 2's task, and looking
up an absent id, both receive the identical 404. -/
theorem claim_C2_witness :
    ((∀ t ∈ [sampleTask2], t.id = 2 → t.owner ≠ 1)
      ∧ (∀ t ∈ [sampleTask2], t.id = 7 → t.owner ≠ 1))
    ∧ getTaskById [sampleTask2] 1 2
        = .err 404 "Task not found"
            "Task not found or you do not have permission to view it"
    ∧ getTaskById [sampleTask2] 1 7
        = .err 404 "Task not found"
            "Task not found or you do not have permission to view it"
    ∧ (deleteTask [sampleTask2] 1 2).2 = [sampleTask2] := by
  refine ⟨⟨by decide, by decide⟩, ?_, ?_, ?_⟩
  · exact (claim_C2 [sampleTask2] 1 2 (by decide)).1
  · exact (claim_C2 [sampleTask2] 1 7 (by decide)).1
  · exact (claim_C2 [sampleTask2] 1 2 (by decide)).2.2.1

/-- Sample active regular user. -/
def sampleUser1 : UserRec :=
  { id := 1, username := "alice", email := "a@x.com",
    password := bcryptHash "secret1", role := Role.user, isActive := true }

/-- Sample active admin. -/
def sampleAdmin : UserRec :=
  { id := 2, username := "root", email := "admin@x.com",
    password := bcryptHash "admin1", role := Role.admin, isActive := true }

/-- Sample deactivated user. -/
def sampleInactive : UserRec :=
  { id := 3, username := "bob", email := "b@x.com",
    password := bcryptHash "secret3", role := Role.user, isActive := false }

/-- A verifier that accepts every token string as belonging to `uid`, for
exercising the middleware at concrete inputs. -/
def constVerify (uid : Nat) : String → JwtResult :=
  fun _ => JwtResult.ok uid

/-- C3 counterexample: in the `src/middleware/auth.js` variant of
`authenticateToken`, a token whose embedded id matches no user is answered
with status 404, not 401, and a matched user with `isActive = false` is
attached and passed through rather than rejected with 401. -/
theorem claim_C3_counterexample :
    authJsAuthenticateToken [sampleUser1] (constVerify 2) (some "Bearer tok")
      = .respond 404 "Access denied" "Invalid token - user not found"
    ∧ (404 : Nat) ≠ 401
    ∧ authJsAuthenticateToken [sampleInactive] (constVerify 3) (some "Bearer tok")
      = .proceed sampleInactive
    ∧ sampleInactive.isActive = false := by
  refine ⟨by decide, by decide, by decide, rfl⟩

/-- C3 (amended): the `authMiddlesware.js` `authenticateToken` — the variant
the routes mount — behaves exactly as claimed: missing token 401, malformed
token 401, expired token 401, unknown user id 401, inactive user 401, and it
proceeds exactly when an extracted token verifies to the id of an active
stored user, attaching that user.  (The `auth.js` variant instead answers
404 for an unknown user and never checks `isActive`.) -/
theorem claim_C3_amended (db : List UserRec) (verify : String → JwtResult)
    (hdr : Option String) :
    (∀ u, authenticateToken db verify hdr = .proceed u →
        u ∈ db ∧ u.isActive = true
        ∧ ∃ tok, extractToken hdr = some tok ∧ verify tok = .ok u.id)
    ∧ (∀ s e m, authenticateToken db verify hdr = .respond s e m → s = 401)
    ∧ (extractToken hdr = none →
        authenticateToken db verify hdr
          = .respond 401 "Access denied" "No token provided")
    ∧ (∀ tok, extractToken hdr = some tok →
        (verify tok = .err .malformed →
          authenticateToken db verify hdr
            = .respond 401 "Access denied" "Invalid token")
        ∧ (verify tok = .err .expired →
          authenticateToken db verify hdr
            = .respond 401 "Access denied" "Token expired")
        ∧ (∀ uid, verify tok = .ok uid →
            (db.find? (fun x => x.id == uid) = none →
              authenticateToken db verify hdr
                = .respond 401 "Access denied" "Invalid token - user not found")
            ∧ (∀ u, db.find? (fun x => x.id == uid) = some u →
                u.isActive = false →
                authenticateToken db verify hdr
                  = .respond 401 "Access denied" "User account is inactive")
            ∧ (∀ u, db.find? (fun x => x.id == uid) = some u →
                u.isActive = true →
                authenticateToken db verify hdr = .proceed u))) := by
  have heval : ∀ tok, extractToken hdr = some tok →
      authenticateToken db verify hdr = authVerifyStep db (verify tok) := by
    intro tok hext
    unfold authenticateToken
    rw [hext]
  have hnone : extractToken hdr = none →
      authenticateToken db verify hdr
        = .respond 401 "Access denied" "No token provided" := by
    intro hext
    unfold authenticateToken
    rw [hext]
  have hlookup : ∀ uid u, db.find? (fun x => x.id == uid) = some u →
      authUserLookup db uid
        = if u.isActive then .proceed u
          else .respond 401 "Access denied" "User account is inactive" := by
    intro uid u hf
    unfold authUserLookup
    rw [hf]
  have hlookupn : ∀ uid, db.find? (fun x => x.id == uid) = none →
      authUserLookup db uid
        = .respond 401 "Access denied" "Invalid token - user not found" := by
    intro uid hf
    unfold authUserLookup
    rw [hf]
  refine ⟨?_, ?_, hnone, ?_⟩
  · intro u h
    cases hext : extractToken hdr with
    | none =>
        rw [hnone hext] at h
        exact absurd h (by simp)
    | some tok =>
        rw [heval tok hext] at h
        cases hv : verify tok with
        | err e =>
            rw [hv] at h
            cases e <;> exact absurd h (by simp [authVerifyStep])
        | ok uid =>
            rw [hv] at h
            simp only [authVerifyStep] at h
            cases hf : db.find? (fun x => x.id == uid) with
            | none =>
                rw [hlookupn uid hf] at h
                exact absurd h (by simp)
            | some u' =>
                rw [hlookup uid u' hf] at h
                by_cases ha : u'.isActive
                · rw [if_pos ha] at h
                  have hu : u' = u := by injection h
                  have hmem := List.mem_of_find?_eq_some hf
                  have hid : u'.id = uid := by
                    have := List.find?_some hf
                    simpa using this
                  refine ⟨hu ▸ hmem, hu ▸ ha, tok, rfl, ?_⟩
                  rw [hv, ← hu, hid]
                · rw [if_neg ha] at h
                  exact absurd h (by simp)
  · intro s e m h
    cases hext : extractToken hdr with
    | none =>
        rw [hnone hext] at h
        cases h; rfl
    | some tok =>
        rw [heval tok hext] at h
        cases hv : verify tok with
        | err e' =>
            rw [hv] at h
            cases e' <;> (simp only [authVerifyStep] at h; cases h; rfl)
        | ok uid =>
            rw [hv] at h
            simp only [authVerifyStep] at h
            cases hf : db.find? (fun x => x.id == uid) with
            | none =>
                rw [hlookupn uid hf] at h
                cases h; rfl
            | some u' =>
                rw [hlookup uid u' hf] at h
                by_cases ha : u'.isActive
                · rw [if_pos ha] at h; exact absurd h (by simp)
                · rw [if_neg ha] at h; cases h; rfl
  · intro tok hext
    refine ⟨?_, ?_, ?_⟩
    · intro hv
      rw [heval tok hext, hv]
      rfl
    · intro hv
      rw [heval tok hext, hv]
      rfl
    · intro uid hv
      refine ⟨?_, ?_, ?_⟩
      · intro hf
        rw [heval tok hext, hv]
        show authUserLookup db uid = _
        exact hlookupn uid hf
      · intro u hf ha
        rw [heval tok hext, hv]
        show authUserLookup db uid = _
        rw [hlookup uid u hf, if_neg (by simp [ha])]
      · intro u hf ha
        rw [heval tok hext, hv]
        show authUserLookup db uid = _
        rw [hlookup uid u hf, if_pos ha]

/-- Concrete instantiation of the amended C3: an inactive user is rejected
with 401, and a missing header is rejected with the no-token 401. -/
theorem claim_C3_witness :
    authenticateToken [sampleInactive] (constVerify 3) (some "Bearer x")
      = .respond 401 "Access denied" "User account is inactive"
    ∧ authenticateToken [] (constVerify 1) none
      = .respond 401 "Access denied" "No token provided" := by
  constructor
  · exact (((claim_C3_amended [sampleInactive] (constVerify 3)
      (some "Bearer x")).2.2.2 "x" (by decide)).2.2 3 rfl).2.1 sampleInactive
      (by decide) rfl
  · exact (claim_C3_amended [] (constVerify 1) none).2.2.1 rfl

/-- The user collection after registering alice with the mixed-case email
"A@x.com" (stored lowercased as "a@x.com"). -/
def dbAfterFirstReg : List UserRec :=
  (register [] "alice" "A@x.com" "pw1" 1 "s" 0).2

/-- C4 counterexample: a second registration with the very same email string
"A@x.com" (and a fresh username) is refused, but with the message
"Username already taken" — the handler compares the stored lowercased email
against the raw input with `===`, so the duplicate-email message is not
produced. -/
theorem claim_C4_counterexample :
    dbAfterFirstReg
      = [{ id := 1, username := "alice", email := "a@x.com",
           password := bcryptHash "pw1", role := Role.user, isActive := true }]
    ∧ (register dbAfterFirstReg "carol" "A@x.com" "pw2" 2 "s" 0).1
      = .err 400 "User already exists" "Username already taken"
    ∧ ("Username already taken" : String) ≠ "Email already registered" := by
  refine ⟨by decide, by decide, by decide⟩

/-- C4 (amended): a registration whose lowercased email or whose username
matches an existing user always fails with 400 "User already exists" and
leaves the store unchanged; the message is one of the two duplicate
messages, and the email-specific message appears only when some stored
email equals the supplied email string verbatim — so a duplicate email
supplied with different letter-case (in particular any email containing an
upper-case letter, which is stored lowercased) yields "Username already
taken" instead. -/
theorem claim_C4_amended (db : List UserRec) (username email password : String)
    (newId : Nat) (secret : String) (now : Int)
    (h : ∃ x ∈ db, x.email = lowerStr email ∨ x.username = username) :
    ∃ m, (register db username email password newId secret now).1
        = .err 400 "User already exists" m
      ∧ (m = "Email already registered" ∨ m = "Username already taken")
      ∧ (register db username email password newId secret now).2 = db
      ∧ (m = "Email already registered" → ∃ x ∈ db, x.email = email) := by
  have hsome : (db.find?
      (fun u => u.email == lowerStr email || u.username == username)).isSome := by
    rw [List.find?_isSome]
    obtain ⟨x, hx, hor⟩ := h
    exact ⟨x, hx, by simpa using hor⟩
  obtain ⟨y, hy⟩ := Option.isSome_iff_exists.mp hsome
  have hreg : register db username email password newId secret now
      = (.err 400 "User already exists"
          (if y.email = email then "Email already registered"
           else "Username already taken"), db) := by
    unfold register
    rw [hy]
  refine ⟨if y.email = email then "Email already registered"
          else "Username already taken", ?_, ?_, ?_, ?_⟩
  · rw [hreg]
  · by_cases hc : y.email = email
    · exact Or.inl (by rw [if_pos hc])
    · exact Or.inr (by rw [if_neg hc])
  · rw [hreg]
  · intro hm
    by_cases hc : y.email = email
    · exact ⟨y, List.mem_of_find?_eq_some hy, hc⟩
    · rw [if_neg hc] at hm
      exact absurd hm (by decide)

/-- Concrete instantiation of the amended C4: registering bob's email again
(exact lowercase match, distinct username) fails 400 with one of the two
duplicate messages and does not grow the store. -/
theorem claim_C4_witness :
    (∃ x ∈ [sampleUser1], x.email = lowerStr "a@x.com" ∨ x.username = "dave")
    ∧ ∃ m, (register [sampleUser1] "dave" "a@x.com" "pw" 9 "s" 0).1
        = .err 400 "User already exists" m
      ∧ (m = "Email already registered" ∨ m = "Username already taken")
      ∧ (register [sampleUser1] "dave" "a@x.com" "pw" 9 "s" 0).2 = [sampleUser1]
      ∧ (m = "Email already registered" → ∃ x ∈ [sampleUser1], x.email = "a@x.com") := by
  refine ⟨⟨sampleUser1, by simp, Or.inl (by decide)⟩, ?_⟩
  exact claim_C4_amended [sampleUser1] "dave" "a@x.com" "pw" 9 "s" 0
    ⟨sampleUser1, by simp, Or.inl (by decide)⟩

theorem ceilDivNat_le_iff (total l k : Nat) (hl : 1 ≤ l) :
    ceilDivNat total l ≤ k ↔ total ≤ k * l := by
  unfold ceilDivNat
  rw [Nat.div_le_iff_le_mul_add_pred hl, Nat.mul_comm l k]
  generalize k * l = m
  omega

theorem taskQuery_eq_true {o : Option Nat} {st : Option Status}
    {pr : Option Priority} {t : Task} (h : taskQuery o st pr t = true) :
    (∀ c, o = some c → t.owner = c)
    ∧ (∀ s, st = some s → t.status = s)
    ∧ (∀ q, pr = some q → t.priority = q) := by
  unfold taskQuery at h
  cases o <;> cases st <;> cases pr <;> simp_all

theorem mem_of_mem_listPage {l : List Task} {skip limit : Nat} {t : Task}
    (h : t ∈ ((sortByCreatedDesc l).drop skip).take limit) : t ∈ l := by
  have h1 : t ∈ sortByCreatedDesc l :=
    List.drop_subset _ _ (List.take_subset _ _ h)
  exact (List.perm_insertionSort createdDesc l).mem_iff.mp h1

theorem sorted_listPage (l : List Task) (skip limit : Nat) :
    (((sortByCreatedDesc l).drop skip).take limit).Sorted createdDesc := by
  have hs : (sortByCreatedDesc l).Sorted createdDesc :=
    List.sorted_insertionSort createdDesc l
  exact List.Pairwise.sublist
    ((List.take_sublist _ _).trans (List.drop_sublist _ _)) hs

/-- C5: the user task-list response contains only the caller's tasks matching
the optional status/priority filters, sorted by creation time descending,
skipping (page-1)*limit records and returning at most limit of them, and its
pagination object carries the request's page and limit, the total match
count, and pages = ceil(total/limit) — characterised as the least k with
total ≤ k·limit — for every page/limit (including limit 1 and total 0); the
admin route returns the same shape over all tasks, and omitted parameters
default to page 1, limit 10. -/
theorem claim_C5 (db : List Task) (callerId : Nat) (st : Option Status)
    (pr : Option Priority) (p l : Nat) (hp : 1 ≤ p) (hl : 1 ≤ l) :
    (∀ t ∈ (listTasks db callerId st pr (some p) (some l)).tasks,
        t ∈ db ∧ t.owner = callerId
        ∧ (∀ s, st = some s → t.status = s)
        ∧ (∀ q, pr = some q → t.priority = q))
    ∧ ((listTasks db callerId st pr (some p) (some l)).tasks).Sorted createdDesc
    ∧ (listTasks db callerId st pr (some p) (some l)).tasks.length ≤ l
    ∧ (listTasks db callerId st pr (some p) (some l)).tasks
        = ((sortByCreatedDesc (db.filter (taskQuery (some callerId) st pr))).drop
            ((p - 1) * l)).take l
    ∧ (listTasks db callerId st pr (some p) (some l)).pagination.page = p
    ∧ (listTasks db callerId st pr (some p) (some l)).pagination.limit = l
    ∧ (listTasks db callerId st pr (some p) (some l)).pagination.total
        = (db.filter (taskQuery (some callerId) st pr)).length
    ∧ (∀ k, (listTasks db callerId st pr (some p) (some l)).pagination.pages ≤ k
        ↔ (listTasks db callerId st pr (some p) (some l)).pagination.total ≤ k * l)
    ∧ (∀ t ∈ (adminListTasks db st pr (some p) (some l)).tasks,
        t ∈ db ∧ (∀ s, st = some s → t.status = s)
        ∧ (∀ q, pr = some q → t.priority = q))
    ∧ ((adminListTasks db st pr (some p) (some l)).tasks).Sorted createdDesc
    ∧ (∀ k, (adminListTasks db st pr (some p) (some l)).pagination.pages ≤ k
        ↔ (adminListTasks db st pr (some p) (some l)).pagination.total ≤ k * l)
    ∧ listTasks db callerId st pr none none
        = listTasks db callerId st pr (some 1) (some 10) := by
  refine ⟨?_, ?_, ?_, rfl, rfl, rfl, rfl, ?_, ?_, ?_, ?_, rfl⟩
  · intro t ht
    have hmem : t ∈ db.filter (taskQuery (some callerId) st pr) :=
      mem_of_mem_listPage ht
    have hq := List.of_mem_filter hmem
    have hdb := List.mem_of_mem_filter hmem
    obtain ⟨ho, hs, hq'⟩ := taskQuery_eq_true hq
    exact ⟨hdb, ho callerId rfl, hs, hq'⟩
  · exact sorted_listPage _ _ _
  · exact List.length_take_le _ _
  · intro k
    exact ceilDivNat_le_iff _ l k hl
  · intro t ht
    have hmem : t ∈ db.filter (taskQuery none st pr) :=
      mem_of_mem_listPage ht
    have hq := List.of_mem_filter hmem
    have hdb := List.mem_of_mem_filter hmem
    obtain ⟨_, hs, hq'⟩ := taskQuery_eq_true hq
    exact ⟨hdb, hs, hq'⟩
  · exact sorted_listPage _ _ _
  · intro k
    exact ceilDivNat_le_iff _ l k hl

/-- Concrete instantiation of C5 at page 1, limit 1, total 2 (pages = 2), and
at total 0 with limit 1 (pages = 0). -/
theorem claim_C5_witness :
    ((1:Nat) ≤ 1)
    ∧ (listTasks [sampleTask, sampleTask2] 1 none none (some 1) (some 1)).tasks.length ≤ 1
    ∧ ((listTasks [sampleTask, sampleTask2] 1 none none (some 1) (some 1)).tasks).Sorted
        createdDesc
    ∧ ((listTasks [] 1 none none (some 1) (some 1)).pagination.pages ≤ 0
        ↔ (listTasks [] 1 none none (some 1) (some 1)).pagination.total ≤ 0 * 1) := by
  refine ⟨by decide, ?_, ?_, ?_⟩
  · exact (claim_C5 [sampleTask, sampleTask2] 1 none none 1 1
      (by decide) (by decide)).2.2.1
  · exact (claim_C5 [sampleTask, sampleTask2] 1 none none 1 1
      (by decide) (by decide)).2.1
  · exact (claim_C5 [] 1 none none 1 1 (by decide) (by decide)).2.2.2.2.2.2.2.1 0

theorem status_partition (l : List Task) :
    (l.filter (fun t => t.status == Status.pending)).length
      + (l.filter (fun t => t.status == Status.inProgress)).length
      + (l.filter (fun t => t.status == Status.completed)).length
      + (l.filter (fun t => t.status == Status.cancelled)).length
      = l.length := by
  induction l with
  | nil => rfl
  | cons t ts ih =>
      cases h : t.status <;> simp [List.filter_cons, h] <;> omega

/-- C6: the per-caller stats summary reports total = the number of the
caller's tasks; overdue = the number of the caller's tasks with a due date
strictly before now and status other than "completed"; byStatus maps each
status to its count among the caller's tasks; and the byStatus values sum to
total (so overdue never exceeds total either). -/
theorem claim_C6 (db : List Task) (callerId : Nat) (now : Int) :
    (statsSummary db callerId now).total
      = (db.filter (fun t => t.owner == callerId)).length
    ∧ (statsSummary db callerId now).overdue
      = ((db.filter (fun t => t.owner == callerId)).filter
          (fun t => dueBefore now t && t.status != Status.completed)).length
    ∧ (∀ s, (statsSummary db callerId now).byStatus s
        = ((db.filter (fun t => t.owner == callerId)).filter
            (fun t => t.status == s)).length)
    ∧ (statsSummary db callerId now).byStatus Status.pending
        + (statsSummary db callerId now).byStatus Status.inProgress
        + (statsSummary db callerId now).byStatus Status.completed
        + (statsSummary db callerId now).byStatus Status.cancelled
      = (statsSummary db callerId now).total
    ∧ (statsSummary db callerId now).overdue ≤ (statsSummary db callerId now).total := by
  have hfilter :
      (db.filter (fun t => t.owner == callerId && dueBefore now t
          && t.status != Status.completed))
        = (db.filter (fun t => t.owner == callerId)).filter
            (fun t => dueBefore now t && t.status != Status.completed) := by
    rw [List.filter_filter]
    apply List.filter_congr
    intro t _
    rw [Bool.and_assoc]
    exact Bool.and_comm _ _
  refine ⟨rfl, ?_, fun s => rfl, status_partition _, ?_⟩
  · show (db.filter (fun t => t.owner == callerId && dueBefore now t
        && t.status != Status.completed)).length = _
    rw [hfilter]
  · show (db.filter (fun t => t.owner == callerId && dueBefore now t
        && t.status != Status.completed)).length ≤ _
    rw [hfilter]
    exact List.length_filter_le _ _

/-- C7: for PUT /api/admin/users/:id/status — a non-boolean `isActive` yields
400 and leaves the store unchanged; a found target equal to the caller
yields 400, leaves the store unchanged (so an active caller's account stays
active); otherwise the found target's flag is set to the supplied boolean
and a sanitized (password-free) view of the updated user is returned, while
every other record is untouched. -/
theorem claim_C7 (db : List UserRec) (callerId targetId : Nat) (v : JsVal) :
    ((∀ b, v ≠ JsVal.bool b) →
      updateUserStatus db callerId targetId v
        = (.err 400 "Invalid input" "isActive must be a boolean value", db))
    ∧ (∀ b u, v = JsVal.bool b →
        db.find? (fun x => x.id == targetId) = some u →
        targetId = callerId →
        updateUserStatus db callerId targetId v
          = (.err 400 "Invalid operation" "You cannot deactivate your own account",
             db)
        ∧ (u.isActive = true →
            ∃ x ∈ (updateUserStatus db callerId targetId v).2,
              x.id = callerId ∧ x.isActive = true))
    ∧ (∀ b u, v = JsVal.bool b →
        db.find? (fun x => x.id == targetId) = some u →
        targetId ≠ callerId →
        (updateUserStatus db callerId targetId v).1
          = .ok ((if b then "User activated" else "User deactivated")
              ++ " successfully") (sanitizeUser { u with isActive := b })
        ∧ (∀ x ∈ (updateUserStatus db callerId targetId v).2,
            x.id = targetId → x.isActive = b)
        ∧ (∀ x ∈ (updateUserStatus db callerId targetId v).2,
            x.id ≠ targetId → x ∈ db)) := by
  refine ⟨?_, ?_, ?_⟩
  · intro hb
    cases v with
    | bool b => exact absurd rfl (hb b)
    | str s => rfl
    | num n => rfl
    | null => rfl
    | undef => rfl
  · intro b u hv hf hid
    subst hv
    have huid : u.id = targetId := by
      have := List.find?_some hf
      simpa using this
    have hcond : (u.id == callerId) = true := by
      simp [huid, hid]
    have heval : updateUserStatus db callerId targetId (JsVal.bool b)
        = (.err 400 "Invalid operation" "You cannot deactivate your own account",
           db) := by
      simp only [updateUserStatus, hf]
      rw [if_pos hcond]
    refine ⟨heval, ?_⟩
    intro hact
    refine ⟨u, ?_, ?_, hact⟩
    · rw [heval]
      exact List.mem_of_find?_eq_some hf
    · rw [huid, hid]
  · intro b u hv hf hid
    subst hv
    have huid : u.id = targetId := by
      have := List.find?_some hf
      simpa using this
    have hcond : ¬((u.id == callerId) = true) := by
      simp only [huid, beq_iff_eq]
      exact hid
    have heval : updateUserStatus db callerId targetId (JsVal.bool b)
        = (.ok ((if b then "User activated" else "User deactivated")
              ++ " successfully") (sanitizeUser { u with isActive := b }),
           db.map (fun x => if x.id == u.id then { u with isActive := b } else x)) := by
      simp only [updateUserStatus, hf]
      rw [if_neg hcond]
    refine ⟨by rw [heval], ?_, ?_⟩
    · intro x hx hxid
      rw [heval] at hx
      obtain ⟨y, hymem, hy⟩ := List.mem_map.mp hx
      by_cases hyid : (y.id == u.id) = true
      · rw [if_pos hyid] at hy
        rw [← hy]
      · rw [if_neg hyid] at hy
        subst hy
        simp only [beq_iff_eq] at hyid
        exact absurd (hxid.trans huid.symm) hyid
    · intro x hx hxid
      rw [heval] at hx
      obtain ⟨y, hymem, hy⟩ := List.mem_map.mp hx
      by_cases hyid : (y.id == u.id) = true
      · rw [if_pos hyid] at hy
        exfalso
        apply hxid
        rw [← hy]
        exact huid
      · rw [if_neg hyid] at hy
        subst hy
        exact hymem

/-- Concrete instantiation of C7: a string body is refused, the admin
self-targeting is refused with the store intact, and flipping bob's flag to
true really sets it and returns the hash-free view. -/
theorem claim_C7_witness :
    updateUserStatus [sampleAdmin, sampleInactive] 2 2 (JsVal.str "yes")
      = (.err 400 "Invalid input" "isActive must be a boolean value",
         [sampleAdmin, sampleInactive])
    ∧ updateUserStatus [sampleAdmin, sampleInactive] 2 2 (JsVal.bool false)
      = (.err 400 "Invalid operation" "You cannot deactivate your own account",
         [sampleAdmin, sampleInactive])
    ∧ (updateUserStatus [sampleAdmin, sampleInactive] 2 3 (JsVal.bool true)).1
      = .ok "User activated successfully"
          (sanitizeUser { sampleInactive with isActive := true }) := by
  refine ⟨?_, ?_, ?_⟩
  · exact (claim_C7 [sampleAdmin, sampleInactive] 2 2 (JsVal.str "yes")).1
      (fun b => by cases b <;> decide)
  · exact ((claim_C7 [sampleAdmin, sampleInactive] 2 2 (JsVal.bool false)).2.1
      false sampleAdmin rfl (by decide) rfl).1
  · exact ((claim_C7 [sampleAdmin, sampleInactive] 2 3 (JsVal.bool true)).2.2
      true sampleInactive rfl (by decide) (by decide)).1

/-- C8: verifying a token immediately after issuing it for a user id with the
same secret recovers exactly that id; the token expires 86400 seconds (24
hours, equivalently one day) after issuance; at or after that instant
verification yields the expired failure and nothing else — in particular a
token checked with its own secret can never fail as malformed. -/
theorem claim_C8 (secret : String) (uid : Nat) (t : Int) :
    jwtVerify secret t (generateToken secret uid t) = .ok uid
    ∧ (generateToken secret uid t).exp = (generateToken secret uid t).iat + 86400
    ∧ (∀ tLater, t + 86400 ≤ tLater →
        jwtVerify secret tLater (generateToken secret uid t) = .err .expired)
    ∧ (∀ tAny, jwtVerify secret tAny (generateToken secret uid t)
        ≠ .err .malformed) := by
  have hsig : ¬((generateToken secret uid t).secret ≠ secret) := by
    simp [generateToken, jwtSign]
  have hexp : (generateToken secret uid t).exp = t + 86400 := rfl
  refine ⟨?_, rfl, ?_, ?_⟩
  · unfold jwtVerify
    rw [if_neg hsig, if_neg (by rw [hexp]; omega)]
    rfl
  · intro tLater hle
    unfold jwtVerify
    rw [if_neg hsig, if_pos (by rw [hexp]; omega)]
  · intro tAny
    unfold jwtVerify
    rw [if_neg hsig]
    by_cases h : (generateToken secret uid t).exp ≤ tAny
    · rw [if_pos h]
      simp
    · rw [if_neg h]
      simp

/-- Concrete instantiation of C8: a token issued at 0 verifies to its user at
0 and is expired at 86400. -/
theorem claim_C8_witness :
    ((0:Int) + 86400 ≤ 86400)
    ∧ jwtVerify "topsecret" 0 (generateToken "topsecret" 42 0) = .ok 42
    ∧ jwtVerify "topsecret" 86400 (generateToken "topsecret" 42 0)
      = .err .expired := by
  refine ⟨by decide, ?_, ?_⟩
  · exact (claim_C8 "topsecret" 42 0).1
  · exact (claim_C8 "topsecret" 42 0).2.2.1 86400 (by decide)

theorem taskPreSave_dueDate (m : Bool) (now : Int) (t : Task) :
    (taskPreSave m now t).dueDate = t.dueDate := by
  unfold taskPreSave
  by_cases hm : m
  · rw [if_pos hm]
    by_cases h1 : t.status = Status.completed ∧ t.completedAt = none
    · rw [if_pos h1]
    · rw [if_neg h1]
      by_cases h2 : t.status ≠ Status.completed
      · rw [if_pos h2]
      · rw [if_neg h2]
  · rw [if_neg hm]

/-- C9: a save whose document carries a due date strictly earlier than the
validation-time clock fails schema validation with the field-level
"Due date must be in the future" error, which the error normaliser maps to a
400 "Validation Error" envelope; and any task a save does persist is not
overdue (per the schema's own isOverdue) at that instant — overdue tasks can
only arise from the clock later passing a stored due date. -/
theorem claim_C9 (now : Int) (t : Task) (v : Int) (sm : Bool)
    (hd : t.dueDate = some v) (hv : v < now) :
    saveTask now sm t
      = .validationFailure [⟨"dueDate", "Due date must be in the future"⟩]
    ∧ errorHandler
        (.validationFailure [⟨"dueDate", "Due date must be in the future"⟩])
      = ⟨400, "Validation Error",
          some [⟨"dueDate", "Due date must be in the future"⟩]⟩
    ∧ (∀ (u u' : Task) (m : Bool), saveTask now m u = .ok u' →
        u'.isOverdue now = false) := by
  refine ⟨?_, rfl, ?_⟩
  · unfold saveTask validateTask dueDateValid
    rw [hd]
    rw [if_neg (by simpa using hv)]
  · intro u u' m hok
    have hval : validateTask now u = [] := by
      by_cases h : dueDateValid now u.dueDate
      · unfold validateTask
        rw [if_pos h]
      · exfalso
        unfold saveTask validateTask at hok
        rw [if_neg h] at hok
        exact absurd hok (by simp)
    have hu' : u' = taskPreSave m now u := by
      unfold saveTask at hok
      rw [hval] at hok
      injection hok with h
      exact h.symm
    have hdue : dueDateValid now u.dueDate = true := by
      by_contra h
      unfold validateTask at hval
      rw [if_neg (by simpa using h)] at hval
      exact absurd hval (by simp)
    subst hu'
    unfold Task.isOverdue
    have : dueBefore now (taskPreSave m now u) = false := by
      unfold dueBefore
      rw [taskPreSave_dueDate]
      unfold dueDateValid at hdue
      cases hdd : u.dueDate with
      | none => rfl
      | some d =>
          rw [hdd] at hdue
          simp only [decide_eq_true_eq] at hdue
          simp [Int.not_lt.mpr hdue]
    rw [this]
    rfl

/-- Concrete instantiation of C9: saving a task due at 5 when the clock reads
10 fails with the dueDate field error. -/
theorem claim_C9_witness :
    ({ sampleTask2 with dueDate := some 5 } : Task).dueDate = some 5
    ∧ ((5:Int) < 10)
    ∧ saveTask 10 false { sampleTask2 with dueDate := some 5 }
      = .validationFailure [⟨"dueDate", "Due date must be in the future"⟩] := by
  refine ⟨rfl, by decide, ?_⟩
  exact (claim_C9 10 { sampleTask2 with dueDate := some 5 } 5 false rfl
    (by decide)).1

/-- C10: when a login's email resolves to a deactivated user, the handler
answers with the account-inactive error before any password comparison — so
the response is identical for every supplied password and for every
comparison function; unknown email and wrong password instead share the
identical "Invalid credentials" response; and the inactive response differs
from that shared response, making inactive accounts' existence observable. -/
theorem claim_C10 (compare : String → String → Bool) (db : List UserRec)
    (secret : String) (now : Int) :
    (∀ email p1 p2 u, email ≠ "" → p1 ≠ "" → p2 ≠ "" →
      db.find? (fun x => x.email == lowerStr email) = some u →
      u.isActive = false →
      login compare db secret now email p1 = login compare db secret now email p2
      ∧ login compare db secret now email p1
          = .err 401 "Account inactive" "Your account has been deactivated")
    ∧ (∀ e1 p1 e2 p2 v, e1 ≠ "" → p1 ≠ "" → e2 ≠ "" → p2 ≠ "" →
        db.find? (fun x => x.email == lowerStr e1) = none →
        db.find? (fun x => x.email == lowerStr e2) = some v →
        v.isActive = true →
        compare p2 v.password = false →
        login compare db secret now e1 p1 = login compare db secret now e2 p2
        ∧ login compare db secret now e1 p1
            = .err 401 "Invalid credentials" "Invalid email or password")
    ∧ (LoginRes.err 401 "Account inactive" "Your account has been deactivated"
        ≠ .err 401 "Invalid credentials" "Invalid email or password") := by
  have hinactive : ∀ email pw u, email ≠ "" → pw ≠ "" →
      db.find? (fun x => x.email == lowerStr email) = some u →
      u.isActive = false →
      login compare db secret now email pw
        = .err 401 "Account inactive" "Your account has been deactivated" := by
    intro email pw u he hp hf hin
    unfold login
    rw [if_neg (by simp [he, hp])]
    simp only [hf]
    rw [if_pos hin]
  have hunknown : ∀ email pw, email ≠ "" → pw ≠ "" →
      db.find? (fun x => x.email == lowerStr email) = none →
      login compare db secret now email pw
        = .err 401 "Invalid credentials" "Invalid email or password" := by
    intro email pw he hp hf
    unfold login
    rw [if_neg (by simp [he, hp])]
    simp only [hf]
  have hwrongpw : ∀ email pw v, email ≠ "" → pw ≠ "" →
      db.find? (fun x => x.email == lowerStr email) = some v →
      v.isActive = true →
      compare pw v.password = false →
      login compare db secret now email pw
        = .err 401 "Invalid credentials" "Invalid email or password" := by
    intro email pw v he hp hf hact hcmp
    have hc1 : ¬(v.isActive = false) := by simp [hact]
    unfold login
    rw [if_neg (by simp [he, hp])]
    simp only [hf]
    rw [if_neg hc1, if_pos hcmp]
  refine ⟨?_, ?_, by decide⟩
  · intro email p1 p2 u he hp1 hp2 hf hin
    rw [hinactive email p1 u he hp1 hf hin, hinactive email p2 u he hp2 hf hin]
    exact ⟨rfl, rfl⟩
  · intro e1 p1 e2 p2 v he1 hp1 he2 hp2 hf1 hf2 hact hcmp
    rw [hunknown e1 p1 he1 hp1 hf1, hwrongpw e2 p2 v he2 hp2 hf2 hact hcmp]
    exact ⟨rfl, rfl⟩

/-- Concrete instantiation of C10: bob's deactivated account answers
identically for two different passwords, and an unknown email matches the
wrong-password response for alice. -/
theorem claim_C10_witness :
    login comparePassword [sampleUser1, sampleInactive] "s" 0 "b@x.com" "guess1"
      = login comparePassword [sampleUser1, sampleInactive] "s" 0 "b@x.com" "guess2"
    ∧ login comparePassword [sampleUser1, sampleInactive] "s" 0 "b@x.com" "guess1"
      = .err 401 "Account inactive" "Your account has been deactivated"
    ∧ login comparePassword [sampleUser1, sampleInactive] "s" 0 "ghost@x.com" "pw"
      = login comparePassword [sampleUser1, sampleInactive] "s" 0 "a@x.com" "wrongpw" := by
  refine ⟨?_, ?_, ?_⟩
  · exact ((claim_C10 comparePassword [sampleUser1, sampleInactive] "s" 0).1
      "b@x.com" "guess1" "guess2" sampleInactive (by decide) (by decide)
      (by decide) (by decide) rfl).1
  · exact ((claim_C10 comparePassword [sampleUser1, sampleInactive] "s" 0).1
      "b@x.com" "guess1" "guess2" sampleInactive (by decide) (by decide)
      (by decide) (by decide) rfl).2
  · exact ((claim_C10 comparePassword [sampleUser1, sampleInactive] "s" 0).2.1
      "ghost@x.com" "pw" "a@x.com" "wrongpw" sampleUser1 (by decide) (by decide)
      (by decide) (by decide) (by decide) (by decide) rfl (by decide)).1

end TMApi
